import Mathlib

/-!
# Verification of the ohaasa-bot core (src/bot.py)

This file is a shallow embedding of the scheduling, caching, retry and
persistence logic of `src/bot.py`, together with theorems settling the
specification claims about it.

Modelling conventions:

* A guild's settings dict is the structure `GuildCfg`.  `cfg.get(k)` on a
  possibly-missing key is an `Option`; Python `int(x)` applied to a missing
  (`None`) value raises `TypeError`, modelled by `pyInt` returning
  `Except PyErr Int`.
* Calendar day strings (`"YYYYMMDD"` from `strftime`) are modelled as `Nat`
  (the formatting is injective per calendar day); wall-clock hour/minute as
  `Int`.
* The Discord channel lookup `client.get_channel` is an oracle
  `gc : Int → Bool` saying whether the channel id resolves.
* One pass of the `for guild_id, cfg in guild_settings.items()` body is
  `evalGuild`; it returns the updated settings and the trace of observable
  events it performs, in program order: `spawn` (`client.loop.create_task`
  of `fetch_and_post_horoscope`), `mark` (the `cfg["last_post_date"] =
  today_str` assignment) and `persist` (`save_guild_config()`).  An
  uncaught Python exception is an `Except.error` — the loop body of
  `scheduler_loop` contains no try/except, so errors short-circuit.
* `tickGuilds` is one tick over the (insertion-ordered) settings map;
  `runTicks` is the `while not client.is_closed()` loop over a list of
  observed clock readings, with the `await asyncio.sleep(30)` suspension
  recorded as a `sleep` event.
-/

/-- A Python exception class, as far as the embedded code distinguishes them. -/
inductive PyErr where
  | typeError
  | ioError
deriving DecidableEq, Repr

/-- Python `int(x)` on an optionally-present value: `int(None)` raises
`TypeError`. -/
def pyInt : Option Int → Except PyErr Int
  | none => .error .typeError
  | some n => .ok n

/-- One guild's settings dict (see `get_or_create_guild_settings` in
src/bot.py).  Every field is optional because the dict is loaded from JSON
and `cfg.get` returns `None` for absent keys. -/
structure GuildCfg where
  channel_id : Option Int
  post_hour : Option Int
  post_minute : Option Int
  gemini_api_key : Option String
  last_post_date : Option Nat
  mention_mode : Option String
  mention_role_id : Option Int
deriving DecidableEq, Repr

/-- The defaults written by `get_or_create_guild_settings` (src/bot.py
lines 98-107): no channel, post time 08:00, empty-string API key, no
last-post marker, no mention. -/
def defaultCfg : GuildCfg :=
  { channel_id := none
    post_hour := some 8
    post_minute := some 0
    gemini_api_key := some ""
    last_post_date := none
    mention_mode := some "none"
    mention_role_id := none }

/-- One reading of `dt.datetime.now()`: the formatted day (`"%Y%m%d"`,
modelled as a `Nat`) plus hour and minute. -/
structure Now where
  day : Nat
  hour : Int
  minute : Int
deriving DecidableEq, Repr

/-- Observable events of the scheduler loop, in program order.
`spawn` is `client.loop.create_task(fetch_and_post_horoscope(...))`,
`mark` is the `cfg["last_post_date"] = today_str` assignment,
`persist` is the `save_guild_config()` call, and `sleep` is the
`await asyncio.sleep(30)` suspension point ending a tick. -/
inductive Ev where
  | spawn (gid : Int) (day : Nat) (mention : Option String)
  | mark (gid : Int) (day : Nat)
  | persist
  | sleep (secs : Nat)
deriving DecidableEq, Repr

/-- Mention-text resolution in the scheduler loop (src/bot.py lines
504-511): `mode = cfg.get("mention_mode", "none")`; `role_id` must be
truthy (a Python int is falsy when 0). -/
def mentionText (cfg : GuildCfg) : Option String :=
  match cfg.mention_mode with
  | some "everyone" => some "@everyone"
  | some "role" =>
    match cfg.mention_role_id with
    | some r => if r ≠ 0 then some ("<@&" ++ toString r ++ ">") else none
    | none => none
  | _ => none

/-- One iteration of the per-guild body of `scheduler_loop` (src/bot.py
lines 482-521): skip when `channel_id is None or gemini_key is None`; skip
when `last_post_date == today_str`; evaluate `int(hour)` (may raise) and
compare to now's hour, then `int(minute)` likewise (Python `and`
short-circuits); resolve the channel; on a match, create the dispatch
task, then set the day marker, then save.  Returns the updated cfg and the
event trace, or the uncaught exception. -/
def evalGuild (gc : Int → Bool) (now : Now) (gid : Int) (cfg : GuildCfg) :
    Except PyErr (GuildCfg × List Ev) :=
  match cfg.channel_id, cfg.gemini_api_key with
  | none, _ => .ok (cfg, [])
  | some _, none => .ok (cfg, [])
  | some ch, some _ =>
    if cfg.last_post_date = some now.day then .ok (cfg, [])
    else
      match pyInt cfg.post_hour with
      | .error e => .error e
      | .ok h =>
        if now.hour ≠ h then .ok (cfg, [])
        else
          match pyInt cfg.post_minute with
          | .error e => .error e
          | .ok m =>
            if now.minute ≠ m then .ok (cfg, [])
            else if gc ch then
              .ok ({ cfg with last_post_date := some now.day },
                   [.spawn gid now.day (mentionText cfg),
                    .mark gid now.day,
                    .persist])
            else .ok (cfg, [])

/-- One full scheduler tick over the settings map, in insertion order.
There is no try/except in `scheduler_loop`, so an exception in one guild's
evaluation aborts the remaining guilds (short-circuits to `.error`). -/
def tickGuilds (gc : Int → Bool) (now : Now) :
    List (Int × GuildCfg) → Except PyErr (List (Int × GuildCfg) × List Ev)
  | [] => .ok ([], [])
  | (gid, cfg) :: rest =>
    match evalGuild gc now gid cfg with
    | .error e => .error e
    | .ok (cfg', evs) =>
      match tickGuilds gc now rest with
      | .error e => .error e
      | .ok (rest', evs') => .ok ((gid, cfg') :: rest', evs ++ evs')

/-- The `while not client.is_closed()` loop of `scheduler_loop`, driven by
a list of clock readings (one per tick).  The exception of a failing tick
propagates out of the loop and terminates it. -/
def runTicks (gc : Int → Bool) :
    List Now → List (Int × GuildCfg) →
    Except PyErr (List (Int × GuildCfg) × List Ev)
  | [], gs => .ok (gs, [])
  | now :: rest, gs =>
    match tickGuilds gc now gs with
    | .error e => .error e
    | .ok (gs', evs) =>
      match runTicks gc rest gs' with
      | .error e => .error e
      | .ok (gs'', evs') => .ok (gs'', evs ++ (.sleep 30 :: evs'))

/-- Is `ev` a dispatch spawn for tenant `gid` on day `d`? -/
def isSpawnFor (gid : Int) (d : Nat) : Ev → Bool
  | .spawn g d' _ => g == gid && d' == d
  | _ => false

/-- Number of dispatches the trace triggers for tenant `gid` on day `d`. -/
def spawnCount (gid : Int) (d : Nat) (evs : List Ev) : Nat :=
  evs.countP (isSpawnFor gid d)

/-- Lookup in the insertion-ordered settings map (Python dict lookup). -/
def findCfg (gid : Int) : List (Int × GuildCfg) → Option GuildCfg
  | [] => none
  | (g, c) :: t => if g = gid then some c else findCfg gid t

/-! ## Scheduler lemmas -/

theorem evalGuild_ok_cases {gc : Int → Bool} {now : Now} {gid : Int}
    {cfg cfg' : GuildCfg} {evs : List Ev}
    (h : evalGuild gc now gid cfg = .ok (cfg', evs)) :
    (cfg' = cfg ∧ evs = []) ∨
    (cfg.last_post_date ≠ some now.day ∧
     cfg' = { cfg with last_post_date := some now.day } ∧
     evs = [.spawn gid now.day (mentionText cfg), .mark gid now.day, .persist]) := by
  unfold evalGuild at h
  repeat' split at h
  all_goals simp_all

theorem spawnCount_append (g : Int) (d : Nat) (a b : List Ev) :
    spawnCount g d (a ++ b) = spawnCount g d a + spawnCount g d b :=
  List.countP_append _ _ _

theorem spawnCount_nil (g : Int) (d : Nat) : spawnCount g d [] = 0 := rfl

theorem evalGuild_spawnCount_other {gc : Int → Bool} {now : Now} {gid : Int}
    {cfg cfg' : GuildCfg} {evs : List Ev} {g : Int} {d : Nat}
    (h : evalGuild gc now gid cfg = .ok (cfg', evs)) (hne : g ≠ gid) :
    spawnCount g d evs = 0 := by
  rcases evalGuild_ok_cases h with ⟨_, rfl⟩ | ⟨_, _, rfl⟩ <;>
    simp [spawnCount, List.countP_cons, isSpawnFor, hne.symm]


theorem findCfg_eq_none_iff {g : Int} : ∀ {gs : List (Int × GuildCfg)},
    findCfg g gs = none ↔ g ∉ gs.map Prod.fst := by
  intro gs
  induction gs with
  | nil => simp [findCfg]
  | cons p t ih =>
    obtain ⟨gid, c⟩ := p
    rw [findCfg]
    by_cases hg : gid = g
    · subst hg; simp
    · simp only [if_neg hg, ih, List.map_cons, List.mem_cons]
      constructor
      · intro hn hmem
        rcases hmem with h1 | h2
        · exact hg h1.symm
        · exact hn h2
      · intro hn h2
        exact hn (Or.inr h2)

theorem tickGuilds_keys {gc : Int → Bool} {now : Now} :
    ∀ {gs gs' : List (Int × GuildCfg)} {evs : List Ev},
    tickGuilds gc now gs = .ok (gs', evs) → gs'.map Prod.fst = gs.map Prod.fst := by
  intro gs
  induction gs with
  | nil => intro gs' evs h; cases h; simp
  | cons p t ih =>
    obtain ⟨gid, c⟩ := p
    intro gs' evs h
    cases heval : evalGuild gc now gid c with
    | error e =>
      rw [tickGuilds, heval] at h
      exact Except.noConfusion h
    | ok p1 =>
      obtain ⟨c', evs0⟩ := p1
      cases htick : tickGuilds gc now t with
      | error e =>
        rw [tickGuilds, heval, htick] at h
        exact Except.noConfusion h
      | ok q =>
        obtain ⟨rest', evs'⟩ := q
        simp only [tickGuilds, heval, htick] at h
        cases h
        simpa using ih htick

theorem tickGuilds_not_mem {gc : Int → Bool} {now : Now} {g : Int} {d : Nat} :
    ∀ {gs gs' : List (Int × GuildCfg)} {evs : List Ev},
    tickGuilds gc now gs = .ok (gs', evs) → findCfg g gs = none →
    spawnCount g d evs = 0 ∧ findCfg g gs' = none := by
  intro gs
  induction gs with
  | nil => intro gs' evs h _; cases h; exact ⟨rfl, rfl⟩
  | cons p t ih =>
    obtain ⟨gid, c⟩ := p
    intro gs' evs h hfind
    rw [findCfg] at hfind
    by_cases hgid : gid = g
    · rw [if_pos hgid] at hfind; cases hfind
    · rw [if_neg hgid] at hfind
      cases heval : evalGuild gc now gid c with
      | error e =>
      rw [tickGuilds, heval] at h
      exact Except.noConfusion h
      | ok p1 =>
        obtain ⟨c', evs0⟩ := p1
        cases htick : tickGuilds gc now t with
        | error e =>
        rw [tickGuilds, heval, htick] at h
        exact Except.noConfusion h
        | ok q =>
          obtain ⟨rest', evs'⟩ := q
          simp only [tickGuilds, heval, htick] at h
          cases h
          have hrest := ih htick hfind
          refine ⟨?_, ?_⟩
          · rw [spawnCount_append, hrest.1,
              evalGuild_spawnCount_other heval (fun hgg => hgid hgg.symm)]
          · rw [findCfg, if_neg hgid]
            exact hrest.2

theorem tickGuilds_mem {gc : Int → Bool} {now : Now} {g : Int} {d : Nat} :
    ∀ {gs gs' : List (Int × GuildCfg)} {evs : List Ev} {cfg : GuildCfg},
    tickGuilds gc now gs = .ok (gs', evs) →
    (gs.map Prod.fst).Nodup → findCfg g gs = some cfg →
    ∃ cfg' evs0, evalGuild gc now g cfg = .ok (cfg', evs0) ∧
      findCfg g gs' = some cfg' ∧ spawnCount g d evs = spawnCount g d evs0 := by
  intro gs
  induction gs with
  | nil => intro gs' evs cfg h _ hfind; cases hfind
  | cons p t ih =>
    obtain ⟨gid, c⟩ := p
    intro gs' evs cfg h hnd hfind
    cases heval : evalGuild gc now gid c with
    | error e =>
      rw [tickGuilds, heval] at h
      exact Except.noConfusion h
    | ok p1 =>
      obtain ⟨c', evs0⟩ := p1
      cases htick : tickGuilds gc now t with
      | error e =>
        rw [tickGuilds, heval, htick] at h
        exact Except.noConfusion h
      | ok q =>
        obtain ⟨rest', evs'⟩ := q
        simp only [tickGuilds, heval, htick] at h
        cases h
        rw [findCfg] at hfind
        by_cases hgid : gid = g
        · rw [if_pos hgid] at hfind
          cases hfind
          subst hgid
          have hnotin : gid ∉ t.map Prod.fst :=
            (List.nodup_cons.mp (by simpa using hnd)).1
          have hrest := @tickGuilds_not_mem gc now gid d t rest' evs' htick
            (findCfg_eq_none_iff.mpr hnotin)
          refine ⟨c', evs0, heval, ?_, ?_⟩
          · rw [findCfg, if_pos rfl]
          · rw [spawnCount_append, hrest.1, Nat.add_zero]
        · rw [if_neg hgid] at hfind
          have hnd' : (t.map Prod.fst).Nodup :=
            (List.nodup_cons.mp (by simpa using hnd)).2
          obtain ⟨cfg', evs1, heval', hfind', hcnt⟩ := ih htick hnd' hfind
          refine ⟨cfg', evs1, heval', ?_, ?_⟩
          · rw [findCfg, if_neg hgid]
            exact hfind'
          · rw [spawnCount_append,
              evalGuild_spawnCount_other heval (fun hgg => hgid hgg.symm), hcnt,
              Nat.zero_add]

theorem spawnCount_triple (g : Int) (D day : Nat) (m : Option String) :
    spawnCount g D [.spawn g day m, .mark g day, .persist] =
      if day = D then 1 else 0 := by
  by_cases hd : day = D <;>
    simp [spawnCount, List.countP_cons, isSpawnFor, hd]

theorem spawnCount_sleep (g : Int) (D n : Nat) (evs : List Ev) :
    spawnCount g D (.sleep n :: evs) = spawnCount g D evs := by
  simp [spawnCount, List.countP_cons, isSpawnFor]

/-- Once a tenant's day marker is at `D'` with `D ≤ D'` and all upcoming
clock readings are at day `≥ D'`, the remaining run triggers no dispatch
for that tenant on day `D`. -/
theorem runTicks_no_respawn {gc : Int → Bool} {g : Int} {D : Nat} :
    ∀ {times : List Now} {gs gs' : List (Int × GuildCfg)} {evs : List Ev}
      {cfg : GuildCfg} {D' : Nat},
    runTicks gc times gs = .ok (gs', evs) →
    (gs.map Prod.fst).Nodup →
    ((times.map Now.day).Pairwise (· ≤ ·)) →
    findCfg g gs = some cfg →
    cfg.last_post_date = some D' →
    D ≤ D' →
    (∀ t ∈ times, D' ≤ t.day) →
    spawnCount g D evs = 0 := by
  intro times
  induction times with
  | nil =>
    intro gs gs' evs cfg D' h _ _ _ _ _ _
    cases h; rfl
  | cons now rest ih =>
    intro gs gs' evs cfg D' h hnd hmono hfind hmark hDD' hday
    cases htick : tickGuilds gc now gs with
    | error e =>
      simp only [runTicks, htick] at h
      exact Except.noConfusion h
    | ok p =>
      obtain ⟨gs1, evs1⟩ := p
      cases hrun : runTicks gc rest gs1 with
      | error e =>
        simp only [runTicks, htick, hrun] at h
        exact Except.noConfusion h
      | ok q =>
        obtain ⟨gs2, evs2⟩ := q
        simp only [runTicks, htick, hrun] at h
        cases h
        obtain ⟨cfg', evs0, heval, hfind', hcnt⟩ := tickGuilds_mem htick hnd hfind
        have hnd1 : (gs1.map Prod.fst).Nodup := by
          rw [tickGuilds_keys htick]; exact hnd
        have hmono' : ((rest.map Now.day).Pairwise (· ≤ ·)) := by
          simp only [List.map_cons, List.pairwise_cons] at hmono
          exact hmono.2
        have hheadle : ∀ t ∈ rest, now.day ≤ t.day := by
          intro t ht
          simp only [List.map_cons, List.pairwise_cons] at hmono
          exact hmono.1 t.day (List.mem_map.mpr ⟨t, ht, rfl⟩)
        have hnowday : D' ≤ now.day := hday now (List.mem_cons_self _ _)
        rw [spawnCount_append, spawnCount_sleep]
        rcases evalGuild_ok_cases heval with ⟨hc, hevs0⟩ | ⟨hne, hcfg', hevs0⟩
        · subst hevs0
          rw [hcnt, spawnCount_nil]
          have hfind'' : findCfg g gs1 = some cfg := hc ▸ hfind'
          rw [ih hrun hnd1 hmono' hfind'' hmark hDD' (fun t ht => hday t (List.mem_cons_of_mem _ ht))]
        · subst hevs0
          have hnotD : now.day ≠ D := by
            intro hdD
            have h1 : D' ≤ D := hdD ▸ hnowday
            have h2 : D' = D := Nat.le_antisymm h1 hDD'
            exact hne (by rw [hmark, h2, hdD])
          rw [hcnt, spawnCount_triple, if_neg hnotD]
          have hmark' : cfg'.last_post_date = some now.day := by
            rw [hcfg']
          rw [ih hrun hnd1 hmono' hfind' hmark' (Nat.le_trans hDD' hnowday) hheadle]

/-- C1: For every tenant `g` and calendar day `D`, a run of the scheduler
loop triggers at most one dispatch for `(g, D)`, no matter how many ticks
fall on day `D` (in particular when the 30s tick period is shorter than a
dispatch's duration: the spawned dispatch task never touches
`last_post_date`, which the tick body updates synchronously).  Hypotheses:
the settings map has distinct keys (it is a Python dict) and the observed
clock days are monotone non-decreasing (wall-clock days). -/
theorem scheduler_at_most_one_dispatch_per_tenant_day
    (gc : Int → Bool) (g : Int) (D : Nat)
    (times : List Now) (gs gs' : List (Int × GuildCfg)) (evs : List Ev)
    (hnd : (gs.map Prod.fst).Nodup)
    (hmono : (times.map Now.day).Pairwise (· ≤ ·))
    (hrun : runTicks gc times gs = .ok (gs', evs)) :
    spawnCount g D evs ≤ 1 := by
  induction times generalizing gs gs' evs with
  | nil =>
    cases hrun
    simp [spawnCount_nil]
  | cons now rest ih =>
    cases htick : tickGuilds gc now gs with
    | error e =>
      simp only [runTicks, htick] at hrun
      exact Except.noConfusion hrun
    | ok p =>
      obtain ⟨gs1, evs1⟩ := p
      cases hrest : runTicks gc rest gs1 with
      | error e =>
        simp only [runTicks, htick, hrest] at hrun
        exact Except.noConfusion hrun
      | ok q =>
        obtain ⟨gs2, evs2⟩ := q
        simp only [runTicks, htick, hrest] at hrun
        cases hrun
        have hnd1 : (gs1.map Prod.fst).Nodup := by
          rw [tickGuilds_keys htick]; exact hnd
        have hmono' : ((rest.map Now.day).Pairwise (· ≤ ·)) := by
          simp only [List.map_cons, List.pairwise_cons] at hmono
          exact hmono.2
        have hheadle : ∀ t ∈ rest, now.day ≤ t.day := by
          intro t ht
          simp only [List.map_cons, List.pairwise_cons] at hmono
          exact hmono.1 t.day (List.mem_map.mpr ⟨t, ht, rfl⟩)
        rw [spawnCount_append, spawnCount_sleep]
        cases hf : findCfg g gs with
        | none =>
          rw [(tickGuilds_not_mem htick hf).1, Nat.zero_add]
          exact ih _ _ _ hnd1 hmono' hrest
        | some cfg =>
          obtain ⟨cfg', evs0, heval, hfind', hcnt⟩ := tickGuilds_mem htick hnd hf
          rcases evalGuild_ok_cases heval with ⟨hc, hevs0⟩ | ⟨hne, hcfg', hevs0⟩
          · subst hevs0
            rw [hcnt, spawnCount_nil, Nat.zero_add]
            exact ih _ _ _ hnd1 hmono' hrest
          · subst hevs0
            rw [hcnt, spawnCount_triple]
            by_cases hd : now.day = D
            · rw [if_pos hd]
              have hmark' : cfg'.last_post_date = some now.day := by rw [hcfg']
              have hzero : spawnCount g D evs2 = 0 :=
                runTicks_no_respawn hrest hnd1 hmono' hfind' hmark'
                  (le_of_eq hd.symm) (fun t ht => hd ▸ hheadle t ht)
              omega
            · rw [if_neg hd, Nat.zero_add]
              exact ih _ _ _ hnd1 hmono' hrest

/-- Witness for C1 at a concrete input: one tenant configured for 08:00,
two ticks both at day 20250101, 08:00 (a tick period shorter than the
dispatch): the run dispatches at most once. -/
theorem scheduler_at_most_one_dispatch_per_tenant_day_witness :
    ([(1, { channel_id := some 10, post_hour := some 8, post_minute := some 0,
            gemini_api_key := some "k", last_post_date := none,
            mention_mode := some "none", mention_role_id := none })].map
        (Prod.fst (α := Int) (β := GuildCfg))).Nodup ∧
    (([⟨20250101, 8, 0⟩, ⟨20250101, 8, 0⟩] : List Now).map Now.day).Pairwise (· ≤ ·) ∧
    spawnCount 1 20250101
      [Ev.spawn 1 20250101 none, Ev.mark 1 20250101, Ev.persist,
       Ev.sleep 30, Ev.sleep 30] ≤ 1 :=
  ⟨by decide, by decide,
   scheduler_at_most_one_dispatch_per_tenant_day (fun _ => true) 1 20250101
     [⟨20250101, 8, 0⟩, ⟨20250101, 8, 0⟩]
     [(1, { channel_id := some 10, post_hour := some 8, post_minute := some 0,
            gemini_api_key := some "k", last_post_date := none,
            mention_mode := some "none", mention_role_id := none })]
     [(1, { channel_id := some 10, post_hour := some 8, post_minute := some 0,
            gemini_api_key := some "k", last_post_date := some 20250101,
            mention_mode := some "none", mention_role_id := none })]
     [Ev.spawn 1 20250101 none, Ev.mark 1 20250101, Ev.persist,
      Ev.sleep 30, Ev.sleep 30]
     (by decide) (by decide) rfl⟩

/-! ## C2, C3, C4: event ordering, skip conditions, exception isolation -/

/-- A fully configured tenant: destination, 08:00 post time, non-empty
credential, no last-post marker. -/
def cfgReady : GuildCfg :=
  { channel_id := some 10
    post_hour := some 8
    post_minute := some 0
    gemini_api_key := some "k"
    last_post_date := none
    mention_mode := some "none"
    mention_role_id := none }

/-- Helper for `markBeforeSpawn`: `marked` records whether a day-marker
write for `gid` has already occurred. -/
def markBeforeSpawnGo (gid : Int) (marked : Bool) : List Ev → Bool
  | [] => true
  | .mark g _ :: t => markBeforeSpawnGo gid (marked || g == gid) t
  | .spawn g _ _ :: t =>
    if g == gid && !marked then false else markBeforeSpawnGo gid marked t
  | _ :: t => markBeforeSpawnGo gid marked t

/-- The ordering claim C2 asserts of the trace: every dispatch spawn for
tenant `gid` is preceded (strictly earlier in the trace) by a day-marker
write for `gid`. -/
def markBeforeSpawn (gid : Int) (evs : List Ev) : Bool :=
  markBeforeSpawnGo gid false evs

/-- Traces in which every dispatch spawn is immediately followed by the
matching day-marker write and a persist.  In particular no suspension
point (`sleep`) intervenes between the spawn and the marker write, so
under cooperative (asyncio) scheduling the marker is set and persisted
before the spawned dispatch task can begin executing. -/
inductive GoodTrace : List Ev → Prop
  | nil : GoodTrace []
  | mark (g : Int) (d : Nat) (t : List Ev) : GoodTrace t → GoodTrace (.mark g d :: t)
  | persist (t : List Ev) : GoodTrace t → GoodTrace (.persist :: t)
  | sleep (n : Nat) (t : List Ev) : GoodTrace t → GoodTrace (.sleep n :: t)
  | triple (g : Int) (d : Nat) (m : Option String) (t : List Ev) :
      GoodTrace t → GoodTrace (.spawn g d m :: .mark g d :: .persist :: t)

theorem GoodTrace.append {a b : List Ev} (ha : GoodTrace a) (hb : GoodTrace b) :
    GoodTrace (a ++ b) := by
  induction ha with
  | nil => exact hb
  | mark g d t _ ih => exact .mark g d _ ih
  | persist t _ ih => exact .persist _ ih
  | sleep n t _ ih => exact .sleep n _ ih
  | triple g d m t _ ih => exact .triple g d m _ ih

theorem evalGuild_goodTrace {gc : Int → Bool} {now : Now} {gid : Int}
    {cfg cfg' : GuildCfg} {evs : List Ev}
    (h : evalGuild gc now gid cfg = .ok (cfg', evs)) : GoodTrace evs := by
  rcases evalGuild_ok_cases h with ⟨_, rfl⟩ | ⟨_, _, rfl⟩
  · exact .nil
  · exact .triple _ _ _ _ .nil

theorem tickGuilds_goodTrace {gc : Int → Bool} {now : Now} :
    ∀ {gs gs' : List (Int × GuildCfg)} {evs : List Ev},
    tickGuilds gc now gs = .ok (gs', evs) → GoodTrace evs := by
  intro gs
  induction gs with
  | nil => intro gs' evs h; cases h; exact .nil
  | cons p t ih =>
    obtain ⟨gid, c⟩ := p
    intro gs' evs h
    cases heval : evalGuild gc now gid c with
    | error e =>
      rw [tickGuilds, heval] at h
      exact Except.noConfusion h
    | ok p1 =>
      obtain ⟨c', evs0⟩ := p1
      cases htick : tickGuilds gc now t with
      | error e =>
        rw [tickGuilds, heval, htick] at h
        exact Except.noConfusion h
      | ok q =>
        obtain ⟨rest', evs'⟩ := q
        simp only [tickGuilds, heval, htick] at h
        cases h
        exact (evalGuild_goodTrace heval).append (ih htick)

/-- C2 counterexample: a matching tick spawns the dispatch task FIRST
(src/bot.py line 516, `client.loop.create_task`), and only then writes the
day marker (line 520) and persists (line 521): in the produced trace, no
day-marker write precedes the spawn, so the claim "marks and persists
before spawning; the marker write never happens after the dispatch has
been started" is false as stated. -/
theorem scheduler_mark_before_spawn_cex :
    runTicks (fun _ => true) [⟨20250101, 8, 0⟩] [(1, cfgReady)] =
      .ok ([(1, { cfgReady with last_post_date := some 20250101 })],
           [.spawn 1 20250101 none, .mark 1 20250101, .persist, .sleep 30]) ∧
    markBeforeSpawn 1
      [.spawn 1 20250101 none, .mark 1 20250101, .persist, .sleep 30] = false :=
  ⟨rfl, rfl⟩

/-- C2 (amended): in every trace an ok scheduler run produces, each
dispatch spawn is followed immediately (with no intervening event, in
particular no suspension point) by the matching day-marker write and the
persist call.  Under asyncio's cooperative scheduling a task created with
`create_task` starts running only at a later suspension point, so the
marker is set and persisted before the dispatch begins executing — spawn
merely precedes the write in program order. -/
theorem scheduler_marker_immediately_follows_spawn
    (gc : Int → Bool) (times : List Now) (gs gs' : List (Int × GuildCfg))
    (evs : List Ev) (hrun : runTicks gc times gs = .ok (gs', evs)) :
    GoodTrace evs := by
  induction times generalizing gs gs' evs with
  | nil => cases hrun; exact .nil
  | cons now rest ih =>
    cases htick : tickGuilds gc now gs with
    | error e =>
      simp only [runTicks, htick] at hrun
      exact Except.noConfusion hrun
    | ok p =>
      obtain ⟨gs1, evs1⟩ := p
      cases hrest : runTicks gc rest gs1 with
      | error e =>
        simp only [runTicks, htick, hrest] at hrun
        exact Except.noConfusion hrun
      | ok q =>
        obtain ⟨gs2, evs2⟩ := q
        simp only [runTicks, htick, hrest] at hrun
        cases hrun
        exact (tickGuilds_goodTrace htick).append (.sleep 30 _ (ih _ _ _ hrest))

/-- Witness for the amended C2 at a concrete run. -/
theorem scheduler_marker_immediately_follows_spawn_witness :
    GoodTrace [.spawn 1 20250101 none, .mark 1 20250101, .persist, .sleep 30] :=
  scheduler_marker_immediately_follows_spawn (fun _ => true) [⟨20250101, 8, 0⟩]
    [(1, cfgReady)] [(1, { cfgReady with last_post_date := some 20250101 })]
    [.spawn 1 20250101 none, .mark 1 20250101, .persist, .sleep 30] rfl

theorem evalGuild_skip (gc : Int → Bool) (now : Now) (gid : Int) (cfg : GuildCfg)
    (h : cfg.channel_id = none ∨ cfg.gemini_api_key = none) :
    evalGuild gc now gid cfg = .ok (cfg, []) := by
  rcases h with h | h
  · simp only [evalGuild, h]
  · cases hc : cfg.channel_id <;> simp only [evalGuild, h, hc]

/-- C3 (amended): the scheduler skips a tenant — no dispatch, settings
unchanged — exactly when its destination or credential is literally
absent (`None`); a tenant holding the full creation defaults is therefore
never dispatched, because its destination is `None`.  (The creation
default CREDENTIAL, the empty string, is NOT skipped: see the
counterexample.) -/
theorem tick_skips_tenant_without_channel_or_key
    (gc : Int → Bool) (now : Now) (g : Int)
    (gs gs' : List (Int × GuildCfg)) (evs : List Ev) (cfg : GuildCfg)
    (hnd : (gs.map Prod.fst).Nodup)
    (hfind : findCfg g gs = some cfg)
    (hskip : cfg.channel_id = none ∨ cfg.gemini_api_key = none)
    (htick : tickGuilds gc now gs = .ok (gs', evs)) :
    findCfg g gs' = some cfg ∧ ∀ d, spawnCount g d evs = 0 := by
  constructor
  · obtain ⟨cfg', evs0, heval, hfind', _⟩ :=
      @tickGuilds_mem gc now g 0 gs gs' evs cfg htick hnd hfind
    rw [evalGuild_skip gc now g cfg hskip] at heval
    cases heval
    exact hfind'
  · intro d
    obtain ⟨cfg', evs0, heval, _, hcnt⟩ :=
      @tickGuilds_mem gc now g d gs gs' evs cfg htick hnd hfind
    rw [evalGuild_skip gc now g cfg hskip] at heval
    cases heval
    rw [hcnt]
    rfl

/-- Witness for the amended C3: a tenant still holding the creation
defaults (destination `None`) is never dispatched and keeps its settings. -/
theorem tick_skips_tenant_without_channel_or_key_witness :
    defaultCfg.channel_id = none ∧
    findCfg 7 [(7, defaultCfg)] = some defaultCfg ∧
    (findCfg 7 [(7, defaultCfg)] = some defaultCfg ∧
      ∀ d, spawnCount 7 d [] = 0) :=
  ⟨rfl, rfl,
   tick_skips_tenant_without_channel_or_key (fun _ => true) ⟨20250101, 8, 0⟩ 7
     [(7, defaultCfg)] [(7, defaultCfg)] [] defaultCfg (by decide) rfl
     (Or.inl rfl) rfl⟩

/-- A tenant with a destination configured but the creation-default
credential: the empty string. -/
def cfgEmptyKey : GuildCfg :=
  { channel_id := some 10
    post_hour := some 8
    post_minute := some 0
    gemini_api_key := some ""
    last_post_date := none
    mention_mode := some "none"
    mention_role_id := none }

/-- C3 counterexample: a tenant whose credential is the creation default
(the empty string, i.e. "no credential configured") but whose destination
is set IS dispatched by a matching tick, and its day marker is updated:
the skip test in src/bot.py line 489 is `gemini_key is None`, which the
empty string passes. -/
theorem tick_dispatches_empty_credential_cex :
    cfgEmptyKey.gemini_api_key = defaultCfg.gemini_api_key ∧
    tickGuilds (fun _ => true) ⟨20250101, 8, 0⟩ [(1, cfgEmptyKey)] =
      .ok ([(1, { cfgEmptyKey with last_post_date := some 20250101 })],
           [.spawn 1 20250101 none, .mark 1 20250101, .persist]) ∧
    spawnCount 1 20250101
      [.spawn 1 20250101 none, .mark 1 20250101, .persist] = 1 :=
  ⟨rfl, rfl, rfl⟩

/-- A tenant whose settings record (e.g. hand-edited or from an older
version of the config file) lacks the `post_hour` key: `int(None)` raises
`TypeError` during its evaluation. -/
def cfgBadHour : GuildCfg :=
  { channel_id := some 5
    post_hour := none
    post_minute := some 0
    gemini_api_key := some "k"
    last_post_date := none
    mention_mode := some "none"
    mention_role_id := none }

/-- C4 (amended): `scheduler_loop` contains no try/except around the
per-tenant body, so an exception raised while evaluating one tenant
aborts the evaluation of every remaining tenant in that tick and
propagates out of the `while` loop, terminating the scheduler — there is
no per-tenant exception isolation. -/
theorem scheduler_exception_aborts_tick_and_loop
    (gc : Int → Bool) (now : Now) (gid : Int) (cfg : GuildCfg)
    (rest : List (Int × GuildCfg)) (ts : List Now) (e : PyErr)
    (h : evalGuild gc now gid cfg = .error e) :
    tickGuilds gc now ((gid, cfg) :: rest) = .error e ∧
    runTicks gc (now :: ts) ((gid, cfg) :: rest) = .error e := by
  have ht : tickGuilds gc now ((gid, cfg) :: rest) = .error e := by
    simp only [tickGuilds, h]
  refine ⟨ht, ?_⟩
  simp only [runTicks, ht]

/-- Witness for the amended C4 at a concrete input. -/
theorem scheduler_exception_aborts_tick_and_loop_witness :
    evalGuild (fun _ => true) ⟨20250101, 8, 0⟩ 1 cfgBadHour = .error .typeError ∧
    (tickGuilds (fun _ => true) ⟨20250101, 8, 0⟩ [(1, cfgBadHour), (2, cfgReady)] =
        .error .typeError ∧
      runTicks (fun _ => true) [⟨20250101, 8, 0⟩] [(1, cfgBadHour), (2, cfgReady)] =
        .error .typeError) :=
  ⟨rfl,
   scheduler_exception_aborts_tick_and_loop (fun _ => true) ⟨20250101, 8, 0⟩ 1
     cfgBadHour [(2, cfgReady)] [] .typeError rfl⟩

/-- C4 counterexample: tenant 1's record lacks `post_hour`, so `int(hour)`
raises `TypeError`; tenant 2, which a tick evaluated in isolation would
dispatch, is never evaluated — the tick returns the exception and the
scheduler loop terminates with it. -/
theorem scheduler_exception_cex :
    evalGuild (fun _ => true) ⟨20250101, 8, 0⟩ 2 cfgReady =
      .ok ({ cfgReady with last_post_date := some 20250101 },
           [.spawn 2 20250101 none, .mark 2 20250101, .persist]) ∧
    tickGuilds (fun _ => true) ⟨20250101, 8, 0⟩ [(1, cfgBadHour), (2, cfgReady)] =
      .error .typeError ∧
    runTicks (fun _ => true) [⟨20250101, 8, 0⟩, ⟨20250102, 8, 0⟩]
      [(1, cfgBadHour), (2, cfgReady)] = .error .typeError :=
  ⟨rfl, rfl, rfl⟩

/-! ## C5: the translation client (`translate_text`, src/bot.py 127-221)

One attempt of the retry loop is driven by an oracle `resp : Nat →
AttemptResult` giving, for each attempt index, what the code observes from
the network block: a parsed 200 response (`ok`), a non-200 HTTP status
(`status`), or an exception raised inside the `try` block (`exn` — a
transport failure, or a parse failure of a 200 body, both caught by the
same `except`).  `translateGo` mirrors `for attempt in range(max_retries)`
with the early-exit tests `attempt < max_retries - 1`; it returns the
result, the number of attempts consumed, and the list of backoff delays
slept (`asyncio.sleep(1 + attempt)`). -/

/-- A translated horoscope item (rank, sign_ko, description_ko). -/
structure TItem where
  rank : String
  sign_ko : String
  description_ko : String
deriving DecidableEq, Repr

/-- What one iteration of the retry loop observes. -/
inductive AttemptResult where
  | ok (items : List TItem)
  | status (code : Nat)
  | exn
deriving DecidableEq, Repr

/-- The conditions under which the loop retries: a 5xx status (line 197)
or an exception caught by the `except` clause (line 214). -/
def retryable : AttemptResult → Bool
  | .ok _ => false
  | .status c => decide (500 ≤ c) && decide (c < 600)
  | .exn => true

/-- Prepend the backoff delay `asyncio.sleep(1 + attempt)` (line 203/217)
to the delay list of a retry-loop continuation. -/
def withDelay (attempt : Nat) (r : Option (List TItem) × Nat × List Nat) :
    Option (List TItem) × Nat × List Nat :=
  (r.1, r.2.1, (1 + attempt) :: r.2.2)

/-- The retry loop of `translate_text` (src/bot.py lines 183-221).
`remaining` is the number of loop iterations left (`max_retries - attempt`
at entry), which drives the structural recursion; `attempt` is the Python
loop index.  Returns (result, attempts consumed, backoff delays slept). -/
def translateGo (resp : Nat → AttemptResult) (maxr : Nat) :
    Nat → Nat → Option (List TItem) × Nat × List Nat
  | attempt, 0 => (none, attempt, [])
  | attempt, remaining + 1 =>
    match resp attempt with
    | .ok items => (some items, attempt + 1, [])
    | .status c =>
      if 500 ≤ c ∧ c < 600 then
        if attempt < maxr - 1 then
          withDelay attempt (translateGo resp maxr (attempt + 1) remaining)
        else (none, attempt + 1, [])
      else (none, attempt + 1, [])
    | .exn =>
      if attempt < maxr - 1 then
        withDelay attempt (translateGo resp maxr (attempt + 1) remaining)
      else (none, attempt + 1, [])

/-- `translate_text` (src/bot.py 127-221): a falsy (empty) API key fails
immediately without any attempt (line 137); otherwise run the retry loop. -/
def translate_text (gemini_api_key : String) (resp : Nat → AttemptResult)
    (max_retries : Nat) : Option (List TItem) × Nat × List Nat :=
  if gemini_api_key = "" then (none, 0, [])
  else translateGo resp max_retries 0 max_retries

theorem withDelay_attempts (attempt : Nat)
    (r : Option (List TItem) × Nat × List Nat) :
    (withDelay attempt r).2.1 = r.2.1 := rfl

theorem translateGo_attempts_le (resp : Nat → AttemptResult) (maxr : Nat) :
    ∀ (remaining attempt : Nat),
    (translateGo resp maxr attempt remaining).2.1 ≤ attempt + remaining := by
  intro remaining
  induction remaining with
  | zero => intro attempt; simp [translateGo]
  | succ r ih =>
    intro attempt
    rw [translateGo]
    split
    · simp
    · split
      · split
        · rw [withDelay_attempts]
          have := ih (attempt + 1)
          omega
        · simp
      · simp
    · split
      · rw [withDelay_attempts]
        have := ih (attempt + 1)
        omega
      · simp

theorem translateGo_retry_only (resp : Nat → AttemptResult) (maxr : Nat) :
    ∀ (remaining attempt k : Nat), attempt ≤ k →
    k + 1 < (translateGo resp maxr attempt remaining).2.1 →
    retryable (resp k) = true := by
  intro remaining
  induction remaining with
  | zero =>
    intro attempt k hak hk
    rw [translateGo] at hk
    simp at hk
    omega
  | succ r ih =>
    intro attempt k hak hk
    rw [translateGo] at hk
    split at hk
    · simp at hk
      omega
    · rename_i c hresp
      split at hk
      · split at hk
        · rw [withDelay_attempts] at hk
          rcases Nat.eq_or_lt_of_le hak with heq | hlt2
          · subst heq
            simp only [retryable, hresp]
            rename_i h5 _
            simp [h5.1, h5.2]
          · exact ih (attempt + 1) k hlt2 hk
        · simp at hk
          omega
      · simp at hk
        omega
    · rename_i hresp
      split at hk
      · rw [withDelay_attempts] at hk
        rcases Nat.eq_or_lt_of_le hak with heq | hlt2
        · subst heq
          simp [retryable, hresp]
        · exact ih (attempt + 1) k hlt2 hk
      · simp at hk
        omega

/-- C5: the translation call retries only when an attempt sees a 5xx
status or an exception from the request block; it makes at most 3
attempts, waiting 1s then 2s between them (`asyncio.sleep(1 + attempt)`);
a 500-then-200 sequence succeeds using exactly 2 attempts (one 1s wait);
three consecutive 5xx responses fail after exactly 3 attempts (waits 1s,
2s) with no further retry; a non-retryable (non-5xx error) status fails
immediately after a single attempt with no wait. -/
theorem translate_text_retry_policy
    (key : String) (resp : Nat → AttemptResult) (items : List TItem) (c : Nat)
    (hkey : key ≠ "") :
    translate_text key (fun n => if n = 0 then .status 500 else .ok items) 3 =
      (some items, 2, [1]) ∧
    translate_text key (fun _ => .status 500) 3 = (none, 3, [1, 2]) ∧
    (¬(500 ≤ c ∧ c < 600) →
      translate_text key (fun _ => .status c) 3 = (none, 1, [])) ∧
    (translate_text key resp 3).2.1 ≤ 3 ∧
    (∀ k, k + 1 < (translate_text key resp 3).2.1 →
      retryable (resp k) = true) := by
  refine ⟨?_, ?_, ?_, ?_, ?_⟩
  · simp only [translate_text, if_neg hkey]
    rfl
  · simp only [translate_text, if_neg hkey]
    rfl
  · intro hc
    simp only [translate_text, if_neg hkey]
    rw [translateGo]
    simp [hc]
  · simp only [translate_text, if_neg hkey]
    have := translateGo_attempts_le resp 3 3 0
    omega
  · intro k hk
    simp only [translate_text, if_neg hkey] at hk
    exact translateGo_retry_only resp 3 3 0 k (Nat.zero_le k) hk

/-- Witness for C5 at concrete inputs: a non-empty key and a 404 (client
fault) response: one attempt, immediate failure, no wait. -/
theorem translate_text_retry_policy_witness :
    (("k" : String) ≠ "" ∧ ¬(500 ≤ 404 ∧ 404 < 600)) ∧
    translate_text "k" (fun _ => .status 404) 3 = (none, 1, []) :=
  ⟨⟨by decide, by decide⟩,
   (translate_text_retry_policy "k" (fun _ => .status 404) [] 404
     (by decide)).2.2.1 (by decide)⟩

/-! ## C6, C7, C9, C10: the per-guild daily cache
(`get_today_horoscope_for_guild`, src/bot.py 317-355)

The external collaborators are oracles consumed one result per call:
`fetches` holds the successive return values of
`asyncio.to_thread(fetch_horoscope_data_sync)` (an `Option String`, the
Japanese JSON text or `None`), `translates` the successive return values
of `translate_text` (`Option (List TItem)`).  `fetchCount` and
`translateCount` count the external calls actually issued, so that
"performs no second source-fetch or translation call" is a statement
about the world. -/

/-- One cache entry: `{ "date": today, "data": translated }`. -/
structure CacheEntry where
  date : Nat
  data : List TItem
deriving DecidableEq, Repr

/-- Python dict lookup in `horoscope_cache`. -/
def cacheGet (gid : Int) : List (Int × CacheEntry) → Option CacheEntry
  | [] => none
  | (g, e) :: t => if g = gid then some e else cacheGet gid t

/-- Python dict assignment `horoscope_cache[guild_id] = entry` (replaces
in place, appends when absent). -/
def cacheSet : List (Int × CacheEntry) → Int → CacheEntry → List (Int × CacheEntry)
  | [], gid, e => [(gid, e)]
  | (g, e') :: t, gid, e =>
    if g = gid then (g, e) :: t else (g, e') :: cacheSet t gid e

/-- Shared state visible to the cache lookup: the cache map, the two
collaborator oracles, and call counters for them. -/
structure World where
  cache : List (Int × CacheEntry)
  fetches : List (Option String)
  translates : List (Option (List TItem))
  fetchCount : Nat
  translateCount : Nat
deriving DecidableEq, Repr

/-- Consume one source-fetch result (`await asyncio.to_thread(
fetch_horoscope_data_sync)`). -/
def takeFetch (w : World) : Option String × World :=
  (w.fetches.headD none,
   { w with fetches := w.fetches.tail, fetchCount := w.fetchCount + 1 })

/-- Consume one translation result (`await translate_text(...)`). -/
def takeTranslate (w : World) : Option (List TItem) × World :=
  (w.translates.headD none,
   { w with translates := w.translates.tail,
            translateCount := w.translateCount + 1 })

/-- The cache-miss path of `get_today_horoscope_for_guild` (src/bot.py
lines 336-355): fetch (fail on `None`, empty, or the literal `"[]"`),
translate (fail on `None` or an empty/falsy result), then store the whole
entry under the lock and return the payload. -/
def slowPath (today : Nat) (gid : Int) (w : World) :
    Option (List TItem) × World :=
  let fw := takeFetch w
  match fw.1 with
  | none => (none, fw.2)
  | some s =>
    if s = "" ∨ s = "[]" then (none, fw.2)
    else
      let tw := takeTranslate fw.2
      match tw.1 with
      | none => (none, tw.2)
      | some items =>
        if items = [] then (none, tw.2)
        else
          (some items,
           { tw.2 with cache := cacheSet tw.2.cache gid ⟨today, items⟩ })

/-- `get_today_horoscope_for_guild` (src/bot.py 317-355): under the cache
lock, return the stored payload if the entry is stamped `today` and its
data is truthy (non-empty); otherwise run the full pipeline. -/
def get_today_horoscope_for_guild (today : Nat) (gid : Int) (w : World) :
    Option (List TItem) × World :=
  match cacheGet gid w.cache with
  | some e =>
    if e.date = today ∧ e.data ≠ [] then (some e.data, w)
    else slowPath today gid w
  | none => slowPath today gid w

theorem cacheGet_cacheSet_self (gid : Int) (e : CacheEntry) :
    ∀ c : List (Int × CacheEntry), cacheGet gid (cacheSet c gid e) = some e := by
  intro c
  induction c with
  | nil => simp [cacheGet, cacheSet]
  | cons p t ih =>
    obtain ⟨g, e'⟩ := p
    by_cases hg : g = gid <;> simp [cacheGet, cacheSet, hg, ih]

theorem slowPath_success_cache {today : Nat} {gid : Int} {w w' : World}
    {items : List TItem}
    (h : slowPath today gid w = (some items, w')) :
    cacheGet gid w'.cache = some ⟨today, items⟩ ∧ items ≠ [] := by
  simp only [slowPath] at h
  split at h
  · exact absurd h (by simp)
  · split at h
    · exact absurd h (by simp)
    · split at h
      · exact absurd h (by simp)
      · split at h
        · exact absurd h (by simp)
        · rename_i hne
          simp only [Prod.mk.injEq, Option.some.injEq] at h
          obtain ⟨h1, h2⟩ := h
          subst h1
          subst h2
          exact ⟨cacheGet_cacheSet_self gid _ _, hne⟩

theorem slowPath_failure_world {today : Nat} {gid : Int} {w w' : World}
    (h : slowPath today gid w = (none, w')) :
    w'.cache = w.cache ∧ w'.fetchCount = w.fetchCount + 1 := by
  simp only [slowPath] at h
  split at h
  · obtain ⟨-, h2⟩ : True ∧ (takeFetch w).2 = w' := by
      simpa using h
    subst h2
    exact ⟨rfl, rfl⟩
  · split at h
    · obtain ⟨-, h2⟩ : True ∧ (takeFetch w).2 = w' := by
        simpa using h
      subst h2
      exact ⟨rfl, rfl⟩
    · split at h
      · obtain ⟨-, h2⟩ : True ∧ (takeTranslate (takeFetch w).2).2 = w' := by
          simpa using h
        subst h2
        exact ⟨rfl, rfl⟩
      · split at h
        · obtain ⟨-, h2⟩ : True ∧ (takeTranslate (takeFetch w).2).2 = w' := by
            simpa using h
          subst h2
          exact ⟨rfl, rfl⟩
        · exact absurd h (by simp)

theorem slowPath_fetchCount (today : Nat) (gid : Int) (w : World) :
    (slowPath today gid w).2.fetchCount = w.fetchCount + 1 := by
  simp only [slowPath]
  split
  · rfl
  · split
    · rfl
    · split
      · rfl
      · split <;> rfl

theorem get_today_success_cache {today : Nat} {gid : Int} {w w' : World}
    {items : List TItem}
    (h : get_today_horoscope_for_guild today gid w = (some items, w')) :
    cacheGet gid w'.cache = some ⟨today, items⟩ ∧ items ≠ [] := by
  unfold get_today_horoscope_for_guild at h
  split at h
  · split at h
    · rename_i e heq hcond
      obtain ⟨ed, edata⟩ := e
      simp only [Prod.mk.injEq, Option.some.injEq] at h
      obtain ⟨h1, h2⟩ := h
      subst h1
      subst h2
      refine ⟨?_, hcond.2⟩
      rw [heq]
      have hed : ed = today := hcond.1
      rw [hed]
    · exact slowPath_success_cache h
  · exact slowPath_success_cache h

theorem get_today_none_parts {today : Nat} {gid : Int} {w w' : World}
    (h : get_today_horoscope_for_guild today gid w = (none, w')) :
    slowPath today gid w = (none, w') ∧
    (∀ e, cacheGet gid w.cache = some e → ¬(e.date = today ∧ e.data ≠ [])) := by
  unfold get_today_horoscope_for_guild at h
  split at h
  · split at h
    · exact absurd h (by simp)
    · rename_i e heq hcond
      refine ⟨h, ?_⟩
      intro e' he'
      rw [heq] at he'
      cases he'
      exact hcond
  · rename_i heq
    refine ⟨h, ?_⟩
    intro e' he'
    rw [heq] at he'
    cases he'

/-- The fast path: a fresh non-empty entry is served as-is. -/
theorem get_today_hit {today : Nat} {gid : Int} {w : World} {e : CacheEntry}
    (heq : cacheGet gid w.cache = some e)
    (hd : e.date = today) (hne : e.data ≠ []) :
    get_today_horoscope_for_guild today gid w = (some e.data, w) := by
  unfold get_today_horoscope_for_guild
  split
  · rename_i e' heq'
    rw [heq] at heq'
    injection heq' with heq'
    subst heq'
    rw [if_pos ⟨hd, hne⟩]
  · rename_i heq'
    rw [heq] at heq'
    cases heq'

/-- A stale or empty entry (or no entry) sends the call to the slow path. -/
theorem get_today_miss {today : Nat} {gid : Int} {w : World}
    (hmiss : ∀ e, cacheGet gid w.cache = some e →
      ¬(e.date = today ∧ e.data ≠ [])) :
    get_today_horoscope_for_guild today gid w = slowPath today gid w := by
  unfold get_today_horoscope_for_guild
  split
  · rename_i e' heq'
    rw [if_neg (hmiss e' heq')]
  · rfl

/-- C6: after a successful call of the cache lookup for `(gid, today)`, a
second call for the same `(gid, today)` returns the identical cached
payload and leaves the world unchanged — in particular it consumes no
further source-fetch or translation oracle result and does not increment
either call counter. -/
theorem cache_second_call_returns_cached
    (today : Nat) (gid : Int) (w w' : World) (items : List TItem)
    (h : get_today_horoscope_for_guild today gid w = (some items, w')) :
    get_today_horoscope_for_guild today gid w' = (some items, w') := by
  obtain ⟨hc, hne⟩ := get_today_success_cache h
  exact get_today_hit hc rfl hne

/-- Witness for C6 at a concrete input: one successful pipeline run, then
the second call serves the cache. -/
theorem cache_second_call_returns_cached_witness :
    get_today_horoscope_for_guild 20250101 1
        { cache := [], fetches := [some "jp"], translates := [some [⟨"1", "a", "d"⟩]],
          fetchCount := 0, translateCount := 0 } =
      (some [⟨"1", "a", "d"⟩],
       { cache := [(1, ⟨20250101, [⟨"1", "a", "d"⟩]⟩)], fetches := [],
         translates := [], fetchCount := 1, translateCount := 1 }) ∧
    get_today_horoscope_for_guild 20250101 1
        { cache := [(1, ⟨20250101, [⟨"1", "a", "d"⟩]⟩)], fetches := [],
          translates := [], fetchCount := 1, translateCount := 1 } =
      (some [⟨"1", "a", "d"⟩],
       { cache := [(1, ⟨20250101, [⟨"1", "a", "d"⟩]⟩)], fetches := [],
         translates := [], fetchCount := 1, translateCount := 1 }) :=
  ⟨rfl,
   cache_second_call_returns_cached 20250101 1
     { cache := [], fetches := [some "jp"], translates := [some [⟨"1", "a", "d"⟩]],
       fetchCount := 0, translateCount := 0 }
     { cache := [(1, ⟨20250101, [⟨"1", "a", "d"⟩]⟩)], fetches := [],
       translates := [], fetchCount := 1, translateCount := 1 }
     [⟨"1", "a", "d"⟩] rfl⟩

/-- C7: when the pipeline fails (fetch unusable or translation failure)
the call returns a failure, the cache is unchanged (no negative entry is
written), and the next call for the same `(gid, today)` runs the slow
path again — it issues a fresh source fetch (the fetch counter
increments) rather than serving anything from cache. -/
theorem cache_failure_not_cached
    (today : Nat) (gid : Int) (w w' : World)
    (h : get_today_horoscope_for_guild today gid w = (none, w')) :
    w'.cache = w.cache ∧
    (get_today_horoscope_for_guild today gid w').2.fetchCount =
      w'.fetchCount + 1 := by
  obtain ⟨hslow, hmiss⟩ := get_today_none_parts h
  have hcache : w'.cache = w.cache := (slowPath_failure_world hslow).1
  refine ⟨hcache, ?_⟩
  have hmiss' : ∀ e, cacheGet gid w'.cache = some e →
      ¬(e.date = today ∧ e.data ≠ []) := by
    rw [hcache]
    exact hmiss
  rw [get_today_miss hmiss']
  exact slowPath_fetchCount today gid w'

/-- Witness for C7 at a concrete input: the translation fails (`None`),
nothing is cached, and the next call re-enters the pipeline. -/
theorem cache_failure_not_cached_witness :
    get_today_horoscope_for_guild 20250101 1
        { cache := [], fetches := [some "jp", some "jp"], translates := [none],
          fetchCount := 0, translateCount := 0 } =
      (none,
       { cache := [], fetches := [some "jp"], translates := [],
         fetchCount := 1, translateCount := 1 }) ∧
    (([] : List (Int × CacheEntry)) = [] ∧
      (get_today_horoscope_for_guild 20250101 1
        { cache := [], fetches := [some "jp"], translates := [],
          fetchCount := 1, translateCount := 1 }).2.fetchCount = 1 + 1) :=
  ⟨rfl,
   cache_failure_not_cached 20250101 1
     { cache := [], fetches := [some "jp", some "jp"], translates := [none],
       fetchCount := 0, translateCount := 0 }
     { cache := [], fetches := [some "jp"], translates := [],
       fetchCount := 1, translateCount := 1 } rfl⟩

/-- C10: the cache lookup never returns an empty item list — every
successful result is non-empty — and a stored entry whose payload is
empty is treated as a miss even when stamped with today: the call takes
the slow path (issues a fresh fetch) instead of serving the empty
payload. -/
theorem cache_never_serves_empty
    (today : Nat) (gid : Int) (w : World) :
    (∀ items, (get_today_horoscope_for_guild today gid w).1 = some items →
      items ≠ []) ∧
    (cacheGet gid w.cache = some ⟨today, []⟩ →
      (get_today_horoscope_for_guild today gid w).2.fetchCount =
        w.fetchCount + 1) := by
  constructor
  · intro items h1
    have h : get_today_horoscope_for_guild today gid w =
        (some items, (get_today_horoscope_for_guild today gid w).2) := by
      rw [← h1]
    exact (get_today_success_cache h).2
  · intro hempty
    have hmiss : ∀ e, cacheGet gid w.cache = some e →
        ¬(e.date = today ∧ e.data ≠ []) := by
      intro e he
      rw [hempty] at he
      cases he
      simp
    rw [get_today_miss hmiss]
    exact slowPath_fetchCount today gid w

/-- Witness for C10 at a concrete input: a cache polluted with an empty
entry stamped today is not served; the call re-fetches. -/
theorem cache_never_serves_empty_witness :
    cacheGet 1 [(1, (⟨20250101, []⟩ : CacheEntry))] = some ⟨20250101, []⟩ ∧
    (get_today_horoscope_for_guild 20250101 1
      { cache := [(1, ⟨20250101, []⟩)], fetches := [], translates := [],
        fetchCount := 5, translateCount := 3 }).2.fetchCount = 5 + 1 :=
  ⟨rfl,
   (cache_never_serves_empty 20250101 1
     { cache := [(1, ⟨20250101, []⟩)], fetches := [], translates := [],
       fetchCount := 5, translateCount := 3 }).2 rfl⟩

/-! ## C9: concurrent invocations of the cache lookup

`get_today_horoscope_for_guild` suspends at each `await` (lock
acquisition, `asyncio.to_thread(fetch...)`, `translate_text`, lock
acquisition again).  The code between suspension points runs atomically
under asyncio's cooperative scheduler, which gives one invocation four
atomic steps: the cache check, the fetch, the translation, and the store.
`stepGet` performs one such step of one invocation; `runTwo` interleaves
two invocations for the same `(gid, today)` according to a schedule
(`true` = step the first caller, `false` = the second). -/

/-- The program counter of one in-flight invocation: which atomic block
runs next. -/
inductive CPhase where
  | toCheck
  | toFetch
  | toTranslate (raw : String)
  | toStore (items : List TItem)
  | halted (r : Option (List TItem))
deriving DecidableEq, Repr

/-- One atomic block of `get_today_horoscope_for_guild`, between two
suspension points (src/bot.py 317-355). -/
def stepGet (today : Nat) (gid : Int) : CPhase × World → CPhase × World
  | (.toCheck, w) =>
    match cacheGet gid w.cache with
    | some e =>
      if e.date = today ∧ e.data ≠ [] then (.halted (some e.data), w)
      else (.toFetch, w)
    | none => (.toFetch, w)
  | (.toFetch, w) =>
    let fw := takeFetch w
    match fw.1 with
    | none => (.halted none, fw.2)
    | some s =>
      if s = "" ∨ s = "[]" then (.halted none, fw.2)
      else (.toTranslate s, fw.2)
  | (.toTranslate _, w) =>
    let tw := takeTranslate w
    match tw.1 with
    | none => (.halted none, tw.2)
    | some items =>
      if items = [] then (.halted none, tw.2)
      else (.toStore items, tw.2)
  | (.toStore items, w) =>
    (.halted (some items), { w with cache := cacheSet w.cache gid ⟨today, items⟩ })
  | (.halted r, w) => (.halted r, w)

/-- Interleave two invocations for the same `(gid, today)` according to a
schedule of scheduler choices. -/
def runTwo (today : Nat) (gid : Int) :
    List Bool → CPhase × CPhase × World → CPhase × CPhase × World
  | [], s => s
  | b :: rest, (pA, pB, w) =>
    if b then
      runTwo today gid rest
        ((stepGet today gid (pA, w)).1, pB, (stepGet today gid (pA, w)).2)
    else
      runTwo today gid rest
        (pA, (stepGet today gid (pB, w)).1, (stepGet today gid (pB, w)).2)

/-- C9 counterexample: a scheduled tick and a manual trigger land
together — both invocations pass the cache check before either stores.
Under the alternating schedule both run the full pipeline to completion:
the translation counter ends at 2, i.e. two redundant translation calls
were issued for the same (tenant, day).  There is no in-flight marker or
request collapsing: the lock guards only individual map accesses. -/
theorem cache_no_single_flight_cex :
    runTwo 20250101 1 [true, false, true, false, true, false, true, false]
        (.toCheck, .toCheck,
         { cache := [], fetches := [some "jp", some "jp"],
           translates := [some [⟨"1", "a", "d"⟩], some [⟨"1", "a", "d"⟩]],
           fetchCount := 0, translateCount := 0 }) =
      (.halted (some [⟨"1", "a", "d"⟩]), .halted (some [⟨"1", "a", "d"⟩]),
       { cache := [(1, ⟨20250101, [⟨"1", "a", "d"⟩]⟩)], fetches := [],
         translates := [], fetchCount := 2, translateCount := 2 }) := by
  rfl

/-- Well-formedness of a cache map: every stored entry has a non-empty
payload (entries are only ever written whole, from a truthy
`translated_data`). -/
def cacheWF : List (Int × CacheEntry) → Bool
  | [] => true
  | (_, e) :: t => (!e.data.isEmpty) && cacheWF t

/-- Well-formedness of an invocation's program counter: a pending store
always carries a non-empty payload (the translate step rejects falsy
results before reaching the store). -/
def phaseWF : CPhase → Bool
  | .toStore items => !items.isEmpty
  | _ => true

/-- How many further translation calls an invocation in this phase can
still issue (at most one, consumed at the translate step). -/
def transBudget : CPhase → Nat
  | .toCheck => 1
  | .toFetch => 1
  | .toTranslate _ => 1
  | .toStore _ => 0
  | .halted _ => 0

theorem cacheWF_cacheSet {e : CacheEntry} (he : e.data.isEmpty = false) :
    ∀ (c : List (Int × CacheEntry)) (gid : Int),
    cacheWF c = true → cacheWF (cacheSet c gid e) = true := by
  intro c
  induction c with
  | nil =>
    intro gid _
    simp [cacheWF, cacheSet, he]
  | cons p t ih =>
    intro gid hc
    obtain ⟨g, e'⟩ := p
    rw [cacheSet]
    rw [cacheWF, Bool.and_eq_true] at hc
    by_cases hg : g = gid
    · rw [if_pos hg, cacheWF, Bool.and_eq_true]
      exact ⟨by simp [he], hc.2⟩
    · rw [if_neg hg, cacheWF, Bool.and_eq_true]
      exact ⟨hc.1, ih gid hc.2⟩

theorem stepGet_inv (today : Nat) (gid : Int) (p : CPhase) (w : World)
    (hp : phaseWF p = true) (hw : cacheWF w.cache = true) :
    phaseWF (stepGet today gid (p, w)).1 = true ∧
    cacheWF (stepGet today gid (p, w)).2.cache = true ∧
    (stepGet today gid (p, w)).2.translateCount +
        transBudget (stepGet today gid (p, w)).1
      ≤ w.translateCount + transBudget p := by
  cases p with
  | toCheck =>
    simp only [stepGet]
    split
    · split
      · exact ⟨rfl, hw, by simp only [transBudget]; omega⟩
      · exact ⟨rfl, hw, by simp only [transBudget]; omega⟩
    · exact ⟨rfl, hw, by simp only [transBudget]; omega⟩
  | toFetch =>
    simp only [stepGet]
    split
    · exact ⟨rfl, hw, by simp only [transBudget, takeFetch]; omega⟩
    · split
      · exact ⟨rfl, hw, by simp only [transBudget, takeFetch]; omega⟩
      · exact ⟨rfl, hw, by simp only [transBudget, takeFetch]; omega⟩
  | toTranslate raw =>
    simp only [stepGet]
    split
    · exact ⟨rfl, hw, by simp only [transBudget, takeTranslate]; omega⟩
    · split
      · exact ⟨rfl, hw, by simp only [transBudget, takeTranslate]; omega⟩
      · rename_i items hne
        refine ⟨?_, hw, by simp only [transBudget, takeTranslate]; omega⟩
        simp only [phaseWF]
        simpa using hne
  | toStore items =>
    simp only [stepGet]
    refine ⟨rfl, ?_, by simp only [transBudget]; omega⟩
    have he : items.isEmpty = false := by
      simp only [phaseWF] at hp
      simpa using hp
    exact cacheWF_cacheSet he w.cache gid hw
  | halted r =>
    exact ⟨rfl, hw, by simp only [stepGet, transBudget]; omega⟩

theorem runTwo_inv (today : Nat) (gid : Int) :
    ∀ (sched : List Bool) (pA pB : CPhase) (w : World),
    phaseWF pA = true → phaseWF pB = true → cacheWF w.cache = true →
    cacheWF (runTwo today gid sched (pA, pB, w)).2.2.cache = true ∧
    (runTwo today gid sched (pA, pB, w)).2.2.translateCount +
        transBudget (runTwo today gid sched (pA, pB, w)).1 +
        transBudget (runTwo today gid sched (pA, pB, w)).2.1
      ≤ w.translateCount + transBudget pA + transBudget pB := by
  intro sched
  induction sched with
  | nil =>
    intro pA pB w hA hB hw
    exact ⟨hw, Nat.le_refl _⟩
  | cons b rest ih =>
    intro pA pB w hA hB hw
    cases b
    · have hrw : runTwo today gid (false :: rest) (pA, pB, w) =
          runTwo today gid rest
            (pA, (stepGet today gid (pB, w)).1, (stepGet today gid (pB, w)).2) := by
        rw [runTwo]
        simp
      rw [hrw]
      obtain ⟨h1, h2, h3⟩ := stepGet_inv today gid pB w hB hw
      obtain ⟨k1, k2⟩ := ih pA (stepGet today gid (pB, w)).1
        (stepGet today gid (pB, w)).2 hA h1 h2
      exact ⟨k1, by omega⟩
    · have hrw : runTwo today gid (true :: rest) (pA, pB, w) =
          runTwo today gid rest
            ((stepGet today gid (pA, w)).1, pB, (stepGet today gid (pA, w)).2) := by
        rw [runTwo]
        simp
      rw [hrw]
      obtain ⟨h1, h2, h3⟩ := stepGet_inv today gid pA w hA hw
      obtain ⟨k1, k2⟩ := ih (stepGet today gid (pA, w)).1 pB
        (stepGet today gid (pA, w)).2 h1 hB h2
      exact ⟨k1, by omega⟩

/-- C9 (amended): the cache provides NO single-flight guarantee — two
invocations for the same (tenant, day) that interleave so that both pass
the cache check before either stores DO both run the pipeline and both
issue a translation call (see the counterexample).  What does hold, under
every interleaving, is the safety bar: each of the two in-flight
invocations issues at most one translation call (the total translation
count rises by at most 2), and the cache only ever holds whole, non-empty
entries — concurrent completion never produces a torn or empty entry. -/
theorem cache_two_concurrent_calls_bounded
    (today : Nat) (gid : Int) (sched : List Bool) (w : World)
    (hw : cacheWF w.cache = true) :
    cacheWF (runTwo today gid sched (.toCheck, .toCheck, w)).2.2.cache = true ∧
    (runTwo today gid sched (.toCheck, .toCheck, w)).2.2.translateCount
      ≤ w.translateCount + 2 := by
  obtain ⟨h1, h2⟩ := runTwo_inv today gid sched .toCheck .toCheck w rfl rfl hw
  refine ⟨h1, ?_⟩
  simp only [transBudget] at h2
  omega

/-- Witness for the amended C9 at a concrete input (the alternating
interleaving of the counterexample). -/
theorem cache_two_concurrent_calls_bounded_witness :
    cacheWF [] = true ∧
    (cacheWF (runTwo 20250101 1 [true, false, true, false, true, false, true, false]
        (.toCheck, .toCheck,
         { cache := [], fetches := [some "jp", some "jp"],
           translates := [some [⟨"1", "a", "d"⟩], some [⟨"1", "a", "d"⟩]],
           fetchCount := 0, translateCount := 0 })).2.2.cache = true ∧
     (runTwo 20250101 1 [true, false, true, false, true, false, true, false]
        (.toCheck, .toCheck,
         { cache := [], fetches := [some "jp", some "jp"],
           translates := [some [⟨"1", "a", "d"⟩], some [⟨"1", "a", "d"⟩]],
           fetchCount := 0, translateCount := 0 })).2.2.translateCount ≤ 0 + 2) :=
  ⟨rfl,
   cache_two_concurrent_calls_bounded 20250101 1
     [true, false, true, false, true, false, true, false]
     { cache := [], fetches := [some "jp", some "jp"],
       translates := [some [⟨"1", "a", "d"⟩], some [⟨"1", "a", "d"⟩]],
       fetchCount := 0, translateCount := 0 } rfl⟩

/-! ## C8: settings mutation and persistence
(`save_guild_config`, src/bot.py 86-93; `/ohaasa apikey`, 597-622)

`save_guild_config` serializes `guild_settings` and writes
`guild_config.json` inside a `try` whose `except Exception` clause only
logs: no exception ever reaches the caller.  The underlying file write is
modelled by a `DiskState` oracle. -/

/-- Whether the configuration file write succeeds. -/
inductive DiskState where
  | writable
  | failing
deriving DecidableEq, Repr

/-- The body of the `try` block in `save_guild_config`: serialize and
write the file; raises on an I/O failure. -/
def writeConfigFile (disk : DiskState) : Except PyErr Unit :=
  match disk with
  | .writable => .ok ()
  | .failing => .error .ioError

/-- What a call of `save_guild_config` does, as observed around it:
a write is always attempted; its internal outcome is recorded (on error it
is logged, src/bot.py line 93); `raised` is what propagates to the caller
— always nothing, because the catch-all `except` swallows every
exception. -/
structure SaveObs where
  attempted : Bool
  internal : Except PyErr Unit
  raised : Option PyErr
deriving Repr

/-- `save_guild_config` (src/bot.py 86-93). -/
def save_guild_config (disk : DiskState) : SaveObs :=
  { attempted := true, internal := writeConfigFile disk, raised := none }

/-- Replace (or append) a guild's settings in the map — the effect of
mutating the dict returned by `get_or_create_guild_settings`. -/
def setCfg : List (Int × GuildCfg) → Int → GuildCfg → List (Int × GuildCfg)
  | [], gid, c => [(gid, c)]
  | (g, c') :: t, gid, c =>
    if g = gid then (g, c) :: t else (g, c') :: setCfg t gid c

/-- `get_or_create_guild_settings` (src/bot.py 96-108): return the
existing settings or insert the defaults. -/
def get_or_create_guild_settings (gs : List (Int × GuildCfg)) (gid : Int) :
    GuildCfg × List (Int × GuildCfg) :=
  match findCfg gid gs with
  | some c => (c, gs)
  | none => (defaultCfg, gs ++ [(gid, defaultCfg)])

/-- The observable outcome of one mutating configuration command. -/
structure CmdOutcome where
  settings : List (Int × GuildCfg)
  save : SaveObs
  raised : Option PyErr
  replied : Bool
deriving Repr

/-- The `/ohaasa apikey` handler (src/bot.py 597-622): get-or-create the
settings, set `gemini_api_key` to the stripped key, call
`save_guild_config()`, then reply with a success message.  The handler
itself raises nothing and its reply does not depend on the save's
outcome. -/
def apikey_command (gs : List (Int × GuildCfg)) (gid : Int)
    (api_key : String) (disk : DiskState) : CmdOutcome :=
  let cg := get_or_create_guild_settings gs gid
  let cfg' := { cg.1 with gemini_api_key := some api_key.trim }
  let gs' := setCfg cg.2 gid cfg'
  let obs := save_guild_config disk
  { settings := gs', save := obs, raised := obs.raised, replied := true }

theorem findCfg_setCfg_self (gid : Int) (c : GuildCfg) :
    ∀ gs : List (Int × GuildCfg), findCfg gid (setCfg gs gid c) = some c := by
  intro gs
  induction gs with
  | nil => simp [setCfg, findCfg]
  | cons p t ih =>
    obtain ⟨g, c'⟩ := p
    by_cases hg : g = gid <;> simp [setCfg, findCfg, hg, ih]

/-- C8 counterexample: with a failing disk, the API-key command's save
fails internally (`IOError` caught and only logged), yet the command
raises nothing, replies success, and the in-memory mutation remains in
place — the failed persist is silently swallowed and the unpersisted
mutation stays committed in memory, contradicting the claim. -/
theorem save_failure_swallowed_cex :
    (apikey_command [] 1 "KEY" .failing).save.internal =
      .error .ioError ∧
    (apikey_command [] 1 "KEY" .failing).raised = none ∧
    (apikey_command [] 1 "KEY" .failing).replied = true ∧
    findCfg 1 (apikey_command [] 1 "KEY" .failing).settings =
      some { defaultCfg with gemini_api_key := some ("KEY" : String).trim } :=
  ⟨rfl, rfl, rfl, rfl⟩

/-- C8 (amended): every mutation persists synchronously before the
command returns — `save_guild_config` is always called, after the
in-memory mutation and before the reply — but a failed persist is NOT
surfaced: the catch-all `except` inside `save_guild_config` logs and
returns normally, the caller observes no error, and the in-memory
mutation stays in place (is treated as committed) regardless of the
persist outcome. -/
theorem mutation_persisted_but_failure_swallowed
    (gs : List (Int × GuildCfg)) (gid : Int) (key : String) (disk : DiskState) :
    (apikey_command gs gid key disk).save.attempted = true ∧
    (apikey_command gs gid key disk).raised = none ∧
    findCfg gid (apikey_command gs gid key disk).settings =
      some { (get_or_create_guild_settings gs gid).1 with
             gemini_api_key := some key.trim } ∧
    (disk = .failing →
      (apikey_command gs gid key disk).save.internal = .error .ioError) := by
  refine ⟨rfl, rfl, ?_, ?_⟩
  · exact findCfg_setCfg_self gid _ _
  · intro hd
    subst hd
    rfl

/-- Witness for the amended C8 at a concrete input (failing disk), with
the failing-disk hypothesis discharged. -/
theorem mutation_persisted_but_failure_swallowed_witness :
    (apikey_command [] 2 " k2 " .failing).save.attempted = true ∧
    (apikey_command [] 2 " k2 " .failing).raised = none ∧
    findCfg 2 (apikey_command [] 2 " k2 " .failing).settings =
      some { (get_or_create_guild_settings [] 2).1 with
             gemini_api_key := some (" k2 " : String).trim } ∧
    (apikey_command [] 2 " k2 " .failing).save.internal = .error .ioError :=
  ⟨(mutation_persisted_but_failure_swallowed [] 2 " k2 " .failing).1,
   (mutation_persisted_but_failure_swallowed [] 2 " k2 " .failing).2.1,
   (mutation_persisted_but_failure_swallowed [] 2 " k2 " .failing).2.2.1,
   (mutation_persisted_but_failure_swallowed [] 2 " k2 " .failing).2.2.2 rfl⟩
